import Mathlib

/-
Verification development for the PdfFit binding layer (src/pdffit2/PdfFit.py).
The Python class is shallowly embedded: Python values appearing at this API
layer become the inductive PyVal, raised exceptions become the PyError
codes of the corresponding Python exception classes, and every invocation of
the external engine module (the pdffit2 C extension) is recorded as an
EngineCall value, so that a function's engine side effects are its returned
call list.  Floating point numbers are modelled as exact scaled decimals.
-/

namespace PdfFit

/-- Python exception classes raised by the embedded code paths: ValueError from
int and float conversion, KeyError from dictionary lookup, TypeError from
formatting or argument mismatch, AttributeError from attribute access on an
object lacking it. -/
inductive PyError where
  | valueError
  | keyError
  | typeError
  | attributeError
deriving DecidableEq

/-- Python values seen by the methods under verification: integers, strings,
and bound methods of the PdfFit object.  The bound methods that matter here
are the nullary variable-reference builders, which return a fixed string when
invoked; a method value therefore carries the string its call returns. -/
inductive PyVal where
  | int (n : Int)
  | str (s : String)
  | method (ret : String)
deriving DecidableEq

/-- The opaque reference an engine lookup returns is identified with the pair
of the looked-up engine function name and its optional integer argument. -/
structure VarRef where
  name : String
  arg : Option Int
deriving DecidableEq

/-- An exact decimal number standing in for a Python float: the value is
mant divided by ten to the fexp.  Exact because every claim treats floats as
opaque pass-through values. -/
structure PyFloat where
  mant : Int
  fexp : Nat
deriving DecidableEq

/-- One invocation of the external pdffit2 engine module, with the implicit
session handle omitted.  varLookup records the call made by the private
resolver when it fetches a variable reference from the engine. -/
inductive EngineCall where
  | varLookup (name : String) (arg : Option Int)
  | constrain_int (ref : VarRef) (par : PyVal)
  | constrain_int_mode (ref : VarRef) (par : PyVal) (mode : Int)
  | constrain_str (ref : VarRef) (formula : String)
  | setpar_dbl (par : PyVal) (val : PyFloat)
  | setpar_RV (par : PyVal) (ref : VarRef)
  | fixpar (par : PyVal)
  | freepar (par : PyVal)
  | read_data_string (data : String) (stype : Int) (qmax sigmaq : PyFloat) (name : String)
  | setDataDescriptor (name : String)
  | set_scat (stype : Int) (a b : PyVal)
  | set_scat_c (stype : Int) (a1 b1 a2 b2 a3 b3 a4 b4 c d : PyVal)
deriving DecidableEq

instance {ε α : Type} [DecidableEq ε] [DecidableEq α] : DecidableEq (Except ε α) := by
  intro a b
  cases a with
  | error e =>
    cases b with
    | error f =>
      cases decEq e f with
      | isTrue h => exact .isTrue (by rw [h])
      | isFalse h => exact .isFalse (by intro hc; injection hc; contradiction)
    | ok y => exact .isFalse (by intro hc; injection hc)
  | ok x =>
    cases b with
    | error f => exact .isFalse (by intro hc; injection hc)
    | ok y =>
      cases decEq x y with
      | isTrue h => exact .isTrue (by rw [h])
      | isFalse h => exact .isFalse (by intro hc; injection hc; contradiction)

/- Python builtins used by the source, modelled over character lists so that
every definition is structurally recursive and kernel-evaluable. -/

/-- Drop the characters satisfying p from both ends of a character list, the
common core of Python str.strip. -/
def stripWhile (p : Char → Bool) (cs : List Char) : List Char :=
  ((cs.dropWhile p).reverse.dropWhile p).reverse

/-- Python str.strip with no argument: remove whitespace from both ends. -/
def pyStrip (s : String) : String :=
  String.mk (stripWhile (fun c => c.isWhitespace) s.toList)

/-- Python str.strip of the closing parenthesis, as the resolver applies to
the argument part of a textual address. -/
def pyStripParen (s : String) : String :=
  String.mk (stripWhile (fun c => c = ')') s.toList)

/-- Python str.upper restricted to ASCII, which is what the classic str.upper
does under the default locale. -/
def pyUpper (s : String) : String :=
  String.mk (s.toList.map Char.toUpper)

/-- Split a character list at every occurrence of the separator character,
keeping empty chunks, exactly as Python str.split with a one-character
separator argument does. -/
def splitList (c : Char) : List Char → List (List Char)
  | [] => [[]]
  | x :: xs =>
    if x = c then [] :: splitList c xs
    else
      match splitList c xs with
      | [] => [[x]]
      | y :: ys => (x :: y) :: ys

/-- Python str.split with a one-character separator. -/
def pySplit (c : Char) (s : String) : List String :=
  (splitList c s.toList).map String.mk

/-- Decimal value of a digit list, most significant digit first. -/
def digitsToNat (ds : List Char) : Nat :=
  ds.foldl (fun a c => 10 * a + (c.toNat - 48)) 0

/-- Python int applied to a string: optional surrounding whitespace, an
optional sign, then one or more decimal digits; anything else raises
ValueError. -/
def pyInt (s : String) : Except PyError Int :=
  let t := stripWhile (fun c => c.isWhitespace) s.toList
  let signed : Int × List Char :=
    match t with
    | '+' :: r => (1, r)
    | '-' :: r => (-1, r)
    | _ => (1, t)
  if signed.2 ≠ [] ∧ signed.2.all Char.isDigit then
    .ok (signed.1 * (digitsToNat signed.2 : Int))
  else
    .error .valueError

/-- Python float applied to a string, modelled as an exact scaled decimal:
optional whitespace and sign, an integer part and or a fractional part with
at least one digit overall, and an optional signed decimal exponent.  The
special spellings inf and nan are not modelled; no claim depends on them. -/
def pyFloatOfString (s : String) : Option PyFloat :=
  let cs := stripWhile (fun c => c.isWhitespace) s.toList
  let signed : Int × List Char :=
    match cs with
    | '+' :: r => (1, r)
    | '-' :: r => (-1, r)
    | _ => (1, cs)
  let sg := signed.1
  let ip := signed.2.takeWhile Char.isDigit
  let rest0 := signed.2.dropWhile Char.isDigit
  let fracSplit : List Char × List Char :=
    match rest0 with
    | '.' :: t => (t.takeWhile Char.isDigit, t.dropWhile Char.isDigit)
    | _ => ([], rest0)
  let fp := fracSplit.1
  let rest1 := fracSplit.2
  if ip = [] ∧ fp = [] then none
  else
    let mant : Int := sg * (digitsToNat (ip ++ fp) : Int)
    let fexp : Nat := fp.length
    match rest1 with
    | [] => some ⟨mant, fexp⟩
    | e :: t =>
      if e = 'e' ∨ e = 'E' then
        let esigned : Bool × List Char :=
          match t with
          | '+' :: r => (true, r)
          | '-' :: r => (false, r)
          | _ => (true, t)
        if esigned.2 ≠ [] ∧ esigned.2.all Char.isDigit then
          let k := digitsToNat esigned.2
          if esigned.1 then some ⟨mant * ((10 : Nat) ^ k : Nat), fexp⟩
          else some ⟨mant, fexp + k⟩
        else none
      else none

/-- Python float applied to a PdfFit-layer value: integers convert exactly,
strings parse by the decimal grammar above raising ValueError on failure, and
a bound method is not a number, raising TypeError. -/
def pyFloat (v : PyVal) : Except PyError PyFloat :=
  match v with
  | .int n => .ok ⟨n, 0⟩
  | .str s =>
    match pyFloatOfString s with
    | some x => .ok x
    | none => .error .valueError
  | .method _ => .error .typeError

/- Embeddings of the PdfFit methods under verification. -/

/-- The parsing stage of the private resolver method of PdfFit: the Python
two-name unpacking of var_string.split on the opening parenthesis succeeds
exactly when the split yields two pieces; then the method name is stripped and
the argument piece is stripped of closing parentheses and whitespace and
converted by int.  Any ValueError from the unpacking or the conversion is
caught, falling back to the whole stripped string as the method name with no
integer argument.  Returns the engine function name and optional argument. -/
def parseVarString (s : String) : String × Option Int :=
  match pySplit '(' s with
  | [m, a] =>
    match pyInt (pyStrip (pyStripParen a)) with
    | .ok n => (pyStrip m, some n)
    | .error _ => (pyStrip s, none)
  | _ => (pyStrip s, none)

/-- Core of the private resolver on an already-stringified address: parse the
text, fetch the engine module attribute of the parsed name, and call it on
the session handle, with the integer argument when one was parsed.  The
engine's opaque return is identified with the name and argument of the lookup,
and the lookup itself is recorded in the returned engine-call list. -/
def getRefString (s : String) : Except PyError (VarRef × List EngineCall) :=
  let p := parseVarString s
  .ok (⟨p.1, p.2⟩, [EngineCall.varLookup p.1 p.2])

/-- Embedding of the private resolver method of PdfFit.  A bound method passed
in place of a string is first invoked to obtain its string form; an integer
has no split attribute, so Python raises AttributeError on it. -/
def getRef (var : PyVal) : Except PyError (VarRef × List EngineCall) :=
  match var with
  | .method ret => getRefString ret
  | .str s => getRefString s
  | .int _ => .error .attributeError

/-- The FCON dictionary of constraint-type identifiers from the source. -/
def FCON (s : String) : Option Int :=
  if s = "USER" then some 0
  else if s = "IDENT" then some 1
  else if s = "FCOMP" then some 2
  else if s = "FSQR" then some 3
  else none

/-- Python truthiness of the optional fcon argument of constrain: None and
the empty string are falsy, every other string is truthy. -/
def fconTruthy : Option String → Bool
  | none => false
  | some s => s ≠ ""

/-- Embedding of constrain: resolve the variable, then dispatch on the
optional constraint-type argument and on the type of the parameter target,
exactly as the source's if chain does.  The FCON lookup raises KeyError on an
unknown constraint-type name. -/
def constrain (var : PyVal) (par : PyVal) (fcon : Option String) :
    Except PyError (List EngineCall) :=
  match getRef var with
  | .error e => .error e
  | .ok (ref, tr) =>
    if fconTruthy fcon then
      match fcon with
      | some f =>
        match FCON f with
        | some m => .ok (tr ++ [EngineCall.constrain_int_mode ref par m])
        | none => .error .keyError
      | none => .error .keyError
    else
      match par with
      | .str s => .ok (tr ++ [EngineCall.constrain_str ref s])
      | p => .ok (tr ++ [EngineCall.constrain_int ref p])

/-- Embedding of setpar: a bound method argument is first invoked to obtain
its string form; then float conversion is tried and on success the engine
receives the numeric value, while a ValueError from the conversion is caught
and the value is resolved as a variable reference and passed by reference.
Errors other than ValueError propagate uncaught. -/
def setpar (par : PyVal) (val : PyVal) : Except PyError (List EngineCall) :=
  let val' := match val with
    | .method r => PyVal.str r
    | v => v
  match pyFloat val' with
  | .ok x => .ok [EngineCall.setpar_dbl par x]
  | .error .valueError =>
    match getRef val' with
    | .ok (ref, tr) => .ok (tr ++ [EngineCall.setpar_RV par ref])
    | .error e => .error e
  | .error e => .error e

/-- The selalias dictionary of the source, mapping the ALL alias to the
sentinel index. -/
def selalias (s : String) : Option Int :=
  if s = "ALL" then some (-1) else none

/-- Embedding of fixpar: a string parameter whose upper-case form is in
selalias is replaced by the sentinel, every other parameter is passed to the
engine unchanged. -/
def fixpar (par : PyVal) : List EngineCall :=
  let par' := match par with
    | .str s =>
      match selalias (pyUpper s) with
      | some k => PyVal.int k
      | none => PyVal.str s
    | p => p
  [EngineCall.fixpar par']

/-- Embedding of freepar, identical to fixpar up to the engine entry point. -/
def freepar (par : PyVal) : List EngineCall :=
  let par' := match par with
    | .str s =>
      match selalias (pyUpper s) with
      | some k => PyVal.int k
      | none => PyVal.str s
    | p => p
  [EngineCall.freepar par']

/-- The LatParams dictionary local to lat, mapping English lattice-constant
names to indices. -/
def LatParams (s : String) : Option Int :=
  if s = "a" then some 1
  else if s = "b" then some 2
  else if s = "c" then some 3
  else if s = "alpha" then some 4
  else if s = "beta" then some 5
  else if s = "gamma" then some 6
  else none

/-- Embedding of lat: a string argument is translated through LatParams,
raising KeyError when absent, and the resulting integer is formatted into the
textual lattice reference.  Formatting a bound method with a numeric format
raises TypeError in Python. -/
def lat (n : PyVal) : Except PyError String :=
  match n with
  | .str s =>
    match LatParams s with
    | some k => .ok ("lat(" ++ toString k ++ ")")
    | none => .error .keyError
  | .int k => .ok ("lat(" ++ toString k ++ ")")
  | .method _ => .error .typeError

/-- The bookkeeping state of a PdfFit object: the ordered structure-name and
dataset-name lists kept beside the opaque engine handle. -/
structure Session where
  stru_files : List String
  data_files : List String
deriving DecidableEq

/-- Embedding of read_struct.  The engine load is external and may raise, so
it is a parameter; the result pairs the object state after the call with the
exception propagated to the caller, if any.  On an engine error the append
never runs, on success the file name is appended to the structure list. -/
def read_struct (eng : String → Except PyError Unit) (st : Session) (struct : String) :
    Session × Option PyError :=
  match eng struct with
  | .error e => (st, some e)
  | .ok _ => ({ st with stru_files := st.stru_files ++ [struct] }, none)

/-- The Sctp dictionary of scattering-type identifiers from the source. -/
def Sctp (s : String) : Option Int :=
  if s = "X" then some 0 else if s = "N" then some 1 else none

/-- Embedding of read_data_string, with the Boolean recording whether a
data_server observer is attached.  After the engine call the source rebinds
the name local to the data argument before appending it to the dataset list
and, when a data_server is present, before passing it as the descriptor. -/
def read_data_string (st : Session) (server : Bool) (data : String) (stype : String)
    (qmax sigmaq : PyFloat) (name : String) :
    Except PyError (Session × List EngineCall) :=
  match Sctp stype with
  | none => .error .keyError
  | some sc =>
    let call := EngineCall.read_data_string data sc qmax sigmaq name
    let name' := data
    let st' := { st with data_files := st.data_files ++ [name'] }
    if server then .ok (st', [call, EngineCall.setDataDescriptor name'])
    else .ok (st', [call])

/-- Python indexing into the varargs tuple; in the embedded code it is only
reached after the length of the list has been checked, so the default is
never produced. -/
def argAt (args : List PyVal) (i : Nat) : PyVal :=
  args.getD i (PyVal.int 0)

/-- Dictionary lookup in Sctp with an arbitrary Python value as key: only the
two string keys are present, any other key raises KeyError. -/
def sctpOfVal (v : PyVal) : Option Int :=
  match v with
  | .str s => Sctp s
  | _ => none

/-- Embedding of set_scat with its Python varargs as a list: three arguments
select the neutron form, eleven select the extended form, and every other
argument count falls through both branches and returns with no engine call
and no error, mirroring the missing else branch of the source. -/
def set_scat (args : List PyVal) : Except PyError (List EngineCall) :=
  if args.length = 3 then
    match sctpOfVal (argAt args 0) with
    | some sc => .ok [EngineCall.set_scat sc (argAt args 1) (argAt args 2)]
    | none => .error .keyError
  else if args.length = 11 then
    match sctpOfVal (argAt args 0) with
    | some sc =>
      .ok [EngineCall.set_scat_c sc (argAt args 1) (argAt args 2) (argAt args 3)
        (argAt args 4) (argAt args 5) (argAt args 6) (argAt args 7) (argAt args 8)
        (argAt args 9) (argAt args 10)]
    | none => .error .keyError
  else
    .ok []

/-- The while loop of refine.  The engine's step results are a function of the
number of previously completed steps; fuel bounds the iterations modelled and
none means convergence was not reached within the fuel.  Each list entry is
one loop iteration, carrying the step counter after its increment and the
finished flag the engine returned for that iteration. -/
def refineLoop (engine : Nat → Bool) (step : Nat) : Nat → Option (List (Nat × Bool))
  | 0 => none
  | fuel + 1 =>
    match engine step, refineLoop engine (step + 1) fuel with
    | true, _ => some [(step + 1, true)]
    | false, some rest => some ((step + 1, false) :: rest)
    | false, none => none

/-- Embedding of refine: run the loop from a zero step counter and return the
ordered list of observer notifications, each a pair of step number and
finished flag (the constant session argument is omitted).  Without an
attached data_server the loop still runs but notifies nobody. -/
def refine (engine : Nat → Bool) (server : Bool) (fuel : Nat) :
    Option (List (Nat × Bool)) :=
  match refineLoop engine 0 fuel with
  | some tr => some (if server then tr else [])
  | none => none

/- Theorems settling the claims. -/

/-- Claim C4: for each pair of English lattice-constant name and integer index
among a and 1, b and 2, c and 3, alpha and 4, beta and 5, gamma and 6, the
lattice address built by lat from the name equals the one built from the
index. -/
theorem lat_name_index_synonyms :
    lat (.str ("a")) = lat (.int 1) ∧ lat (.str ("b")) = lat (.int 2) ∧
    lat (.str ("c")) = lat (.int 3) ∧ lat (.str ("alpha")) = lat (.int 4) ∧
    lat (.str ("beta")) = lat (.int 5) ∧ lat (.str ("gamma")) = lat (.int 6) :=
  ⟨rfl, rfl, rfl, rfl, rfl, rfl⟩

/-- Claim C6: building a lattice address from a string that is none of the six
recognized English names fails with the KeyError lookup error, and that error
is distinct from the ValueError the integer conversion raises on an
unparsable index. -/
theorem lat_unknown_name_lookup_error (s : String)
    (h : s ∉ ["a", "b", "c", "alpha", "beta", "gamma"]) :
    lat (.str s) = .error .keyError ∧
    (∀ t e, pyInt t = .error e → e = .valueError) ∧
    PyError.keyError ≠ PyError.valueError := by
  refine ⟨?_, ?_, by decide⟩
  · simp only [List.mem_cons, List.not_mem_nil, or_false, not_or] at h
    obtain ⟨h1, h2, h3, h4, h5, h6⟩ := h
    simp [lat, LatParams, h1, h2, h3, h4, h5, h6]
  · intro t e he
    simp only [pyInt] at he
    split at he
    · exact absurd he (by simp)
    · injection he with h'
      exact h'.symm

/-- Concrete instance of the unknown lattice-name error: the name Q is not
recognized and produces the KeyError, which differs from ValueError. -/
theorem lat_unknown_name_lookup_error_witness :
    lat (.str ("Q")) = .error .keyError ∧ PyError.keyError ≠ PyError.valueError := by
  have h := lat_unknown_name_lookup_error ("Q") (by decide)
  exact ⟨h.1, h.2.2⟩

/-- Claim C7: fixpar and freepar translate any string selector whose
upper-case form is ALL to the sentinel -1 before the engine call, and pass an
integer selector to the engine unchanged. -/
theorem fixpar_freepar_all_alias (s : String) (i : Int) :
    (pyUpper s = "ALL" →
      fixpar (.str s) = [EngineCall.fixpar (.int (-1))] ∧
      freepar (.str s) = [EngineCall.freepar (.int (-1))]) ∧
    fixpar (.int i) = [EngineCall.fixpar (.int i)] ∧
    freepar (.int i) = [EngineCall.freepar (.int i)] := by
  refine ⟨fun h => ?_, rfl, rfl⟩
  constructor <;> simp [fixpar, freepar, selalias, h]

/-- Concrete instance of the ALL alias translation at two letter cases. -/
theorem fixpar_freepar_all_alias_witness :
    fixpar (.str ("all")) = [EngineCall.fixpar (.int (-1))] ∧
    freepar (.str ("aLl")) = [EngineCall.freepar (.int (-1))] := by
  have h1 := (fixpar_freepar_all_alias ("all") 0).1 (by decide)
  have h2 := (fixpar_freepar_all_alias ("aLl") 0).1 (by decide)
  exact ⟨h1.1, h2.2⟩

/-- Claim C10: set_scat called with an argument count other than three or
eleven silently returns with no engine call and no raised error. -/
theorem set_scat_other_arity_noop (args : List PyVal)
    (h3 : args.length ≠ 3) (h11 : args.length ≠ 11) :
    set_scat args = .ok [] := by
  simp [set_scat, h3, h11]

/-- Concrete instance of the silent no-op: two arguments produce no engine
call and no error. -/
theorem set_scat_other_arity_noop_witness :
    set_scat [PyVal.str ("N"), PyVal.int 1] = .ok [] :=
  set_scat_other_arity_noop [PyVal.str ("N"), PyVal.int 1] (by decide) (by decide)

/-- Claim C9: read_struct is atomic with respect to the session lists: when
the engine load raises, the session is unchanged, and when it succeeds the
new structure-name list is the old one with the file name appended as its
last element and the dataset list is untouched. -/
theorem read_struct_atomic (eng : String → Except PyError Unit) (st : Session) (s : String) :
    ((read_struct eng st s).2.isSome → (read_struct eng st s).1 = st) ∧
    ((read_struct eng st s).2 = none →
      (read_struct eng st s).1.stru_files = st.stru_files ++ [s] ∧
      (read_struct eng st s).1.data_files = st.data_files) := by
  unfold read_struct
  cases eng s <;> simp

/-- Concrete instances of the atomicity of read_struct: a failing engine load
leaves the empty session unchanged, a succeeding one appends the file name. -/
theorem read_struct_atomic_witness :
    (read_struct (fun _ => Except.error PyError.valueError) ⟨[], []⟩ ("f.stru")).1 = ⟨[], []⟩ ∧
    (read_struct (fun _ => Except.ok ()) ⟨[], []⟩ ("f.stru")).1.stru_files = ["f.stru"] := by
  have h1 := (read_struct_atomic (fun _ => Except.error PyError.valueError) ⟨[], []⟩ ("f.stru")).1 (by decide)
  have h2 := (read_struct_atomic (fun _ => Except.ok ()) ⟨[], []⟩ ("f.stru")).2 (by decide)
  exact ⟨h1, by simpa using h2.1⟩

/-- Claim C8 evaluated at a failing input: a successful read_data_string
appends the data string itself to the dataset-name list, not the supplied
name label, because the source rebinds the name local to the data argument
before the append. -/
theorem read_data_string_appends_data_not_label :
    read_data_string ⟨[], []⟩ false ("DATA-CONTENTS") ("X") ⟨30, 0⟩ ⟨0, 0⟩ ("nickel") =
      .ok (⟨[], ["DATA-CONTENTS"]⟩,
        [EngineCall.read_data_string ("DATA-CONTENTS") 0 ⟨30, 0⟩ ⟨0, 0⟩ ("nickel")]) ∧
    ("DATA-CONTENTS" : String) ≠ "nickel" :=
  ⟨rfl, by decide⟩

/-- Claim C3 refuted at a concrete input: resolving the well-formed textual
address lat(1) performs an engine invocation, so resolution does not avoid
the engine. -/
theorem getRef_invokes_engine_cex :
    getRef (.str ("lat(1)")) =
      .ok (⟨"lat", some 1⟩, [EngineCall.varLookup ("lat") (some 1)]) ∧
    [EngineCall.varLookup ("lat") (some 1)] ≠ ([] : List EngineCall) :=
  ⟨by decide, by decide⟩

/-- Claim C3 amended: resolving a textual address parses only the address
syntax and then performs exactly one engine invocation, the lookup named by
the parsed kind applied to the parsed index, and no other engine operation; a
bound method resolves exactly as its returned string; the invocation made is
determined by the address text alone. -/
theorem getRef_single_engine_call (s : String) :
    getRef (.method s) = getRef (.str s) ∧
    ∃ ref, getRef (.str s) = .ok (ref, [EngineCall.varLookup ref.name ref.arg]) ∧
      ref.name = (parseVarString s).1 ∧ ref.arg = (parseVarString s).2 :=
  ⟨rfl, ⟨⟨(parseVarString s).1, (parseVarString s).2⟩, rfl, rfl, rfl⟩⟩

/-- Claim C1: with an explicit constraint mode the binding goes through the
integer-mode engine entry carrying that mode regardless of the target's type;
without one, a string target goes through the formula entry and an integer
target through the integer entry with no mode. -/
theorem constrain_mode_dispatch (var par : PyVal) (f : String) (m : Int)
    (ref : VarRef) (tr : List EngineCall) (h : getRef var = .ok (ref, tr)) :
    (FCON f = some m →
      constrain var par (some f) = .ok (tr ++ [EngineCall.constrain_int_mode ref par m])) ∧
    (∀ s, constrain var (.str s) none = .ok (tr ++ [EngineCall.constrain_str ref s])) ∧
    (∀ i, constrain var (.int i) none = .ok (tr ++ [EngineCall.constrain_int ref (.int i)])) := by
  refine ⟨fun hm => ?_, fun s => ?_, fun i => ?_⟩
  · have hf : f ≠ "" := by
      intro he
      subst he
      rw [(by decide : FCON ("") = none)] at hm
      exact Option.noConfusion hm
    simp [constrain, h, fconTruthy, hf, hm]
  · simp [constrain, h, fconTruthy]
  · simp [constrain, h, fconTruthy]

/-- Concrete instances of the constraint-mode dispatch: an explicit FCOMP mode
forces the integer-mode entry even on a formula-string target, a bare formula
string selects the formula entry, a bare integer selects the integer entry. -/
theorem constrain_mode_dispatch_witness :
    constrain (.str ("x(1)")) (.str ("0.5+@1")) (some ("FCOMP")) =
      .ok ([EngineCall.varLookup ("x") (some 1)] ++
        [EngineCall.constrain_int_mode ⟨"x", some 1⟩ (.str ("0.5+@1")) 2]) ∧
    constrain (.str ("x(1)")) (.str ("0.5+@1")) none =
      .ok ([EngineCall.varLookup ("x") (some 1)] ++
        [EngineCall.constrain_str ⟨"x", some 1⟩ ("0.5+@1")]) ∧
    constrain (.str ("x(1)")) (.int 1) none =
      .ok ([EngineCall.varLookup ("x") (some 1)] ++
        [EngineCall.constrain_int ⟨"x", some 1⟩ (.int 1)]) := by
  have h := constrain_mode_dispatch (.str ("x(1)")) (.str ("0.5+@1")) ("FCOMP") 2
    ⟨"x", some 1⟩ [EngineCall.varLookup ("x") (some 1)] (by decide)
  exact ⟨h.1 (by decide), h.2.1 ("0.5+@1"), h.2.2 1⟩

/-- Claim C5: setpar first invokes a bound-method value to obtain its string
form; numeric coercion is attempted next and on success the parameter slot is
set to the number; only when the coercion raises ValueError is the value
resolved as a variable reference and bound by reference. -/
theorem setpar_coercion_order (par : PyVal) (r s : String) (x : PyFloat) (n : Int) :
    setpar par (.method r) = setpar par (.str r) ∧
    setpar par (.int n) = .ok [EngineCall.setpar_dbl par ⟨n, 0⟩] ∧
    (pyFloat (.str s) = .ok x →
      setpar par (.str s) = .ok [EngineCall.setpar_dbl par x]) ∧
    (pyFloat (.str s) = .error .valueError →
      ∃ ref tr, getRef (.str s) = .ok (ref, tr) ∧
        setpar par (.str s) = .ok (tr ++ [EngineCall.setpar_RV par ref])) := by
  refine ⟨rfl, rfl, fun hx => ?_, fun hx => ?_⟩
  · simp [setpar, hx]
  · refine ⟨⟨(parseVarString s).1, (parseVarString s).2⟩,
      [EngineCall.varLookup (parseVarString s).1 (parseVarString s).2], rfl, ?_⟩
    simp [setpar, hx, getRef, getRefString]

/-- Concrete instances of the coercion order of setpar: a numeric string sets
the slot to its value, a non-numeric variable name is resolved and bound by
reference. -/
theorem setpar_coercion_order_witness :
    setpar (.int 3) (.str ("0.5")) = .ok [EngineCall.setpar_dbl (.int 3) ⟨5, 1⟩] ∧
    (∃ ref tr, getRef (.str ("qsig")) = .ok (ref, tr) ∧
      setpar (.int 3) (.str ("qsig")) = .ok (tr ++ [EngineCall.setpar_RV (.int 3) ref])) := by
  have h1 := (setpar_coercion_order (.int 3) ("") ("0.5") ⟨5, 1⟩ 0).2.2.1 (by decide)
  have h2 := (setpar_coercion_order (.int 3) ("") ("qsig") ⟨0, 0⟩ 0).2.2.2 (by decide)
  exact ⟨h1, h2⟩

/-- Every converging run of the refine loop, started at any step counter,
produces one trace entry per engine step: the step numbers are consecutive
from one past the start, at least one step runs, and the finished flag is
true exactly on the last entry. -/
theorem refineLoop_trace (engine : Nat → Bool) :
    ∀ (fuel s : Nat) (tr : List (Nat × Bool)), refineLoop engine s fuel = some tr →
      tr.map Prod.fst = List.range' (s + 1) tr.length ∧
      1 ≤ tr.length ∧
      ∀ i, ∀ hi : i < tr.length, (tr.get ⟨i, hi⟩).2 = decide (i + 1 = tr.length) := by
  intro fuel
  induction fuel with
  | zero =>
    intro s tr h
    simp [refineLoop] at h
  | succ f ih =>
    intro s tr h
    rw [refineLoop] at h
    cases hes : engine s with
    | true =>
      rw [hes] at h
      injection h with h'
      subst h'
      refine ⟨by simp [List.range'_one], by simp, ?_⟩
      intro i hi
      have h0 : i = 0 := by
        have : i < 1 := by simpa using hi
        omega
      subst h0
      simp
    | false =>
      rw [hes] at h
      cases hr : refineLoop engine (s + 1) f with
      | none =>
        rw [hr] at h
        exact absurd h (by simp)
      | some rest =>
        rw [hr] at h
        injection h with h'
        subst h'
        obtain ⟨ih1, ih2, ih3⟩ := ih (s + 1) rest hr
        refine ⟨?_, by simp, ?_⟩
        · simp only [List.map_cons, List.length_cons, List.range'_succ, ih1]
        · intro i hi
          cases i with
          | zero =>
            have hne : ¬ (0 + 1 = rest.length + 1) := by omega
            simp [hne]
          | succ j =>
            have hj : j < rest.length := by simpa using hi
            have hstep : (((s + 1, false) :: rest).get ⟨j + 1, hi⟩) = rest.get ⟨j, hj⟩ := rfl
            rw [hstep, ih3 j hj]
            simp only [List.length_cons]
            exact decide_eq_decide.mpr (by omega)

/-- Claim C2: in a run of refine that converges, with an observer attached the
observer is notified exactly once per engine step, the step numbers are
exactly 1, 2, 3 and so on in order, the finished flag is true on the final
notification and false on every earlier one; with no observer attached no
notification is made. -/
theorem refine_observer_notifications (engine : Nat → Bool) (fuel : Nat)
    (tr : List (Nat × Bool)) :
    (refine engine true fuel = some tr →
      tr.map Prod.fst = List.range' 1 tr.length ∧
      1 ≤ tr.length ∧
      ∀ i, ∀ hi : i < tr.length, (tr.get ⟨i, hi⟩).2 = decide (i + 1 = tr.length)) ∧
    (refine engine false fuel = some tr → tr = []) := by
  constructor
  · intro h
    unfold refine at h
    cases hr : refineLoop engine 0 fuel with
    | none =>
      rw [hr] at h
      exact absurd h (by simp)
    | some tr0 =>
      rw [hr] at h
      simp only [if_true] at h
      injection h with h'
      subst h'
      have := refineLoop_trace engine fuel 0 tr0 hr
      simpa using this
  · intro h
    unfold refine at h
    cases hr : refineLoop engine 0 fuel with
    | none =>
      rw [hr] at h
      exact absurd h (by simp)
    | some tr0 =>
      rw [hr] at h
      simp only [if_neg (by simp : ¬ (false = true))] at h
      injection h with h'
      exact h'.symm

/-- Concrete instance of the observer protocol: an engine converging on its
third step notifies steps 1, 2, 3 with the finished flag true only at the
end, and an unattached observer receives nothing. -/
theorem refine_observer_notifications_witness :
    List.map Prod.fst [((1 : Nat), false), (2, false), (3, true)] = List.range' 1 3 ∧
    ([] : List (Nat × Bool)) = [] := by
  have h1 := (refine_observer_notifications (fun n => decide (n = 2)) 5
    [(1, false), (2, false), (3, true)]).1 (by decide)
  have h2 := (refine_observer_notifications (fun n => decide (n = 2)) 5 []).2 (by decide)
  exact ⟨by simpa using h1.1, h2⟩

end PdfFit
